import Mathlib

set_option maxHeartbeats 1600000
set_option maxRecDepth 40000

namespace OpenClawSync

/-! Shallow embedding of the sync reliability core of src/index.js
    (OpenClaw Memory Sync v2, a SillyTavern extension). -/

/-- Wrap an integer to JavaScript 32-bit signed semantics (the effect of x|0). -/
def int32wrap (n : Int) : Int :=
  let m := n % 4294967296
  if m < 2147483648 then m else m - 4294967296

/-- UTF-16 code units of a string (BMP text), as read by charCodeAt. -/
def jsCodeUnits (s : String) : List Nat :=
  s.toList.map Char.toNat

/-- One step of the rolling hash in hashMessage:
    hash = ((hash << 5) - hash) + chr; hash |= 0. -/
def hashStep (hash : Int) (chr : Nat) : Int :=
  int32wrap (int32wrap (hash * 32) - hash + chr)

/-- Base-36 digit characters, as produced by Number.toString(36). -/
def digitChar36 (d : Nat) : Char :=
  if d < 10 then Char.ofNat (48 + d) else Char.ofNat (87 + d)

/-- Digit-extraction loop of Number.toString(36), fuel-based so that it
    unfolds by structural recursion: n + 1 iterations always suffice because
    every step divides the remaining value by 36. -/
def natToBase36Aux : Nat → Nat → List Char → List Char
  | 0, _, acc => acc
  | fuel + 1, n, acc =>
    if n = 0 then acc
    else natToBase36Aux fuel (n / 36) (digitChar36 (n % 36) :: acc)

def natToBase36 (n : Nat) : String :=
  if n = 0 then "0" else String.mk (natToBase36Aux (n + 1) n [])

def intToBase36 (i : Int) : String :=
  if i < 0 then "-" ++ natToBase36 (-i).toNat else natToBase36 i.toNat

/-- hashMessage(userMsg, assistantMsg) from src/index.js lines 82-91:
    concatenates 200-unit text heads around a pipe separator, folds the
    rolling 32-bit hash over the code units, renders it in base 36. -/
def hashMessage (userMsg assistantMsg : String) : String :=
  let str := (jsCodeUnits userMsg).take 200 ++ [124] ++ (jsCodeUnits assistantMsg).take 200
  intToBase36 (str.foldl hashStep 0)

/-- The extension settings object (defaultSettings, src/index.js lines 15-39). -/
structure Settings where
  enabled : Bool
  syncUrl : String
  realtimeSync : Bool
  fullConversationSync : Bool
  idleTimeoutMinutes : Nat
  offlineBuffer : Bool
  maxBufferSize : Nat
  dedup : Bool
  showNotifications : Bool
  showErrors : Bool
  lastSyncTime : Option String
deriving DecidableEq

def defaultSettings : Settings :=
  { enabled := true
    syncUrl := "http://10.0.0.172:4000/st-sync"
    realtimeSync := true
    fullConversationSync := true
    idleTimeoutMinutes := 5
    offlineBuffer := true
    maxBufferSize := 100
    dedup := true
    showNotifications := true
    showErrors := false
    lastSyncTime := none }

/-- One entry of the host chat transcript, as read by the extension. -/
structure ChatMsg where
  is_user : Bool
  is_system : Bool
  mes : String
  send_date : String
deriving DecidableEq

/-- One entry of the messages array in a full_conversation payload. -/
structure ConvMessage where
  role : String
  name : String
  content : String
  timestamp : String
deriving DecidableEq

/-- The wire unit POSTed to the sync endpoint. -/
inductive Payload
  | message (character userMessage assistantMessage chatId timestamp : String)
  | fullConversation (character chatId : String) (messageCount : Nat)
      (messages : List ConvMessage) (timestamp : String)
deriving DecidableEq

/-- Result of one fetch: 2xx, an HTTP error status, or a transport error
    (fetch throwing: DNS/connect/timeout failure). -/
inductive NetResult
  | ok
  | httpErr (status : Nat)
  | transportErr
deriving DecidableEq

/-- The transport oracle: what the network answers for each POSTed payload. -/
abbrev Net := Payload → NetResult

/-- The pending setTimeout timers of the host environment: (id, fire time). -/
structure TimerSys where
  pending : List (Nat × Nat)
  nextId : Nat
deriving DecidableEq

/-- The extension's mutable state: settings, the in-memory hash Set
    (insertion order), the two localStorage records, the tracked chat id and
    the idle-timer handle. -/
structure SyncState where
  settings : Settings
  syncedHashes : List String
  storedHashes : List String
  buffer : List Payload
  lastSyncedChatId : Option String
  timers : TimerSys
  idleTimer : Option Nat
deriving DecidableEq

/-- JavaScript Set.add: appends only when the element is not yet present. -/
def setAdd (s : List String) (x : String) : List String :=
  if x ∈ s then s else s ++ [x]

/-- Array.prototype.slice(-n): the last n elements (all of them when shorter). -/
def lastN (n : Nat) (l : List α) : List α :=
  l.drop (l.length - n)

/-- saveSyncedHashes (src/index.js lines 105-110): persists the most recent
    500 fingerprints; the in-memory set itself is left untouched. -/
def saveSyncedHashes (st : SyncState) : SyncState :=
  { st with storedHashes := lastN 500 st.syncedHashes }

/-- loadSyncedHashes (src/index.js lines 94-102): rebuilds the in-memory set
    from the last 500 persisted fingerprints. -/
def loadSyncedHashes (st : SyncState) : SyncState :=
  { st with syncedHashes := lastN 500 st.storedHashes }

/-- The while-loop of addToBuffer: while (buffer.length > M) buffer.shift(). -/
def trimBuffer (M : Nat) : List α → List α
  | [] => []
  | x :: rest => if M < rest.length + 1 then trimBuffer M rest else x :: rest

/-- addToBuffer at the queue level: push, then drop oldest while over capacity. -/
def addToBufferL (M : Nat) (buf : List α) (p : α) : List α :=
  trimBuffer M (buf ++ [p])

/-- addToBuffer (src/index.js lines 127-135). -/
def addToBuffer (st : SyncState) (p : Payload) : SyncState :=
  { st with buffer := addToBufferL st.settings.maxBufferSize st.buffer p }

/-- The flush iteration of flushBuffer (src/index.js lines 144-157), returning
    (remaining, attempted): 2xx removes the entry, an HTTP error keeps it and
    continues, a transport error keeps it and breaks out of the loop. -/
def flushLoop (net : Net) : List Payload → List Payload × List Payload
  | [] => ([], [])
  | payload :: rest =>
    match net payload with
    | .ok =>
      let r := flushLoop net rest
      (r.1, payload :: r.2)
    | .httpErr _ =>
      let r := flushLoop net rest
      (payload :: r.1, payload :: r.2)
    | .transportErr => ([payload], [payload])

/-- flushBuffer (src/index.js lines 137-168): early return on an empty queue,
    otherwise run the loop and persist whatever ended up in remaining. -/
def flushBuffer (st : SyncState) (net : Net) : SyncState × List Payload :=
  if st.buffer.length = 0 then (st, [])
  else
    let r := flushLoop net st.buffer
    ({ st with buffer := r.1 }, r.2)

/-- The exits a call to syncMessage can take. The raised constructor stands
    for an exception escaping to the caller; the translation never produces
    it because the try/catch at src/index.js lines 200-224 swallows every
    delivery error. -/
inductive MsgExit
  | disabled
  | dedupSkip (hash : String)
  | delivered
  | failedBuffered
  | failedDropped
  | raised (msg : String)
deriving DecidableEq

/-- Observable outcome of one syncMessage call: final state, the direct
    request (if the fetch was reached), the requests issued by the piggybacked
    flush, how many times flushBuffer was invoked, and the exit taken. -/
structure MsgOutcome where
  state : SyncState
  request : Option Payload
  flushRequests : List Payload
  flushCalls : Nat
  exit : MsgExit
deriving DecidableEq

/-- The message payload built at src/index.js lines 191-198. -/
def mkMessagePayload (charName userMessage assistantMessage chatId now : String) : Payload :=
  .message charName userMessage assistantMessage chatId now

/-- The try/catch around the fetch in syncMessage (src/index.js lines 200-224):
    on 2xx record lastSyncTime and flush the offline queue; any HTTP error is
    thrown and caught together with transport errors, which buffer the payload
    when offlineBuffer is on and never rethrow. -/
def deliverAndHandle (st1 : SyncState) (net : Net) (payload : Payload) (now : String) : MsgOutcome :=
  match net payload with
  | .ok =>
    let st2 := { st1 with settings := { st1.settings with lastSyncTime := some now } }
    let fr := flushBuffer st2 net
    ⟨fr.1, some payload, fr.2, 1, .delivered⟩
  | .httpErr _ =>
    let st2 := if st1.settings.offlineBuffer then addToBuffer st1 payload else st1
    ⟨st2, some payload, [], 0, if st1.settings.offlineBuffer then .failedBuffered else .failedDropped⟩
  | .transportErr =>
    let st2 := if st1.settings.offlineBuffer then addToBuffer st1 payload else st1
    ⟨st2, some payload, [], 0, if st1.settings.offlineBuffer then .failedBuffered else .failedDropped⟩

/-- syncMessage (src/index.js lines 175-225). When dedup is on, a known
    fingerprint skips the call; a fresh one is added to the set and persisted
    before the fetch is attempted. -/
def syncMessage (st : SyncState) (net : Net)
    (userMessage assistantMessage chatId charName now : String) : MsgOutcome :=
  if st.settings.enabled ∧ st.settings.realtimeSync then
    let hash := hashMessage userMessage assistantMessage
    let payload := mkMessagePayload charName userMessage assistantMessage chatId now
    if st.settings.dedup then
      if hash ∈ st.syncedHashes then ⟨st, none, [], 0, .dedupSkip hash⟩
      else deliverAndHandle (saveSyncedHashes { st with syncedHashes := setAdd st.syncedHashes hash }) net payload now
    else deliverAndHandle st net payload now
  else ⟨st, none, [], 0, .disabled⟩

/-- The host context snapshot read through SillyTavern.getContext(). -/
structure Context where
  chat : List ChatMsg
  chatId : String
  characterName : String
deriving DecidableEq

/-- The exits a call to syncFullConversation can take; its catch block
    swallows every error, so there is no raising exit. -/
inductive FullExit
  | disabled
  | tooShort
  | alreadySynced
  | delivered
  | failed
deriving DecidableEq

/-- Observable outcome of one syncFullConversation call. -/
structure FullOutcome where
  state : SyncState
  request : Option Payload
  flushCalls : Nat
  exit : FullExit
deriving DecidableEq

/-- The messages array built at src/index.js lines 254-263: system entries
    are skipped, user entries are named Kytrex, assistant entries carry the
    character name. -/
def buildMessages (chat : List ChatMsg) (charName : String) : List ConvMessage :=
  (chat.filter fun m => m.is_system = false).map fun m =>
    ⟨if m.is_user then "user" else "assistant",
     if m.is_user then "Kytrex" else charName,
     m.mes, m.send_date⟩

/-- The conversation fingerprint of src/index.js lines 243-246: hash of the
    decimal message count against the last message text. -/
def fullConversationHash (chat : List ChatMsg) : String :=
  hashMessage (toString chat.length) ((chat.getLast?.map ChatMsg.mes).getD "")

/-- syncFullConversation (src/index.js lines 230-293). Note two facts checked
    by the claims: the full_ fingerprint test and insertion are not guarded by
    settings.dedup, and the 2xx branch neither updates lastSyncTime nor calls
    flushBuffer. -/
def syncFullConversation (st : SyncState) (ctx : Context) (net : Net) (now : String) : FullOutcome :=
  if st.settings.enabled ∧ st.settings.fullConversationSync then
    if ctx.chat.length < 2 then ⟨st, none, 0, .tooShort⟩
    else
      let conversationHash := fullConversationHash ctx.chat
      if ("full_" ++ conversationHash) ∈ st.syncedHashes then ⟨st, none, 0, .alreadySynced⟩
      else
        let messages := buildMessages ctx.chat ctx.characterName
        let payload : Payload := .fullConversation ctx.characterName ctx.chatId messages.length messages now
        match net payload with
        | .ok =>
          ⟨saveSyncedHashes { st with syncedHashes := setAdd st.syncedHashes ("full_" ++ conversationHash) },
           some payload, 0, .delivered⟩
        | _ => ⟨st, some payload, 0, .failed⟩
  else ⟨st, none, 0, .disabled⟩

/-- clearTimeout: removes the pending timer with the given handle (a no-op on
    a handle that already fired). -/
def clearTimeout (ts : TimerSys) (id : Nat) : TimerSys :=
  { ts with pending := ts.pending.filter fun q => q.1 != id }

/-- setTimeout: arms a fresh timer and returns its handle. -/
def setTimeout (ts : TimerSys) (fireAt : Nat) : TimerSys × Nat :=
  ({ pending := ts.pending ++ [(ts.nextId, fireAt)], nextId := ts.nextId + 1 }, ts.nextId)

/-- The idle countdown in milliseconds: idleTimeoutMinutes * 60 * 1000. -/
def Tms (s : Settings) : Nat :=
  s.idleTimeoutMinutes * 60 * 1000

/-- resetIdleTimer (src/index.js lines 297-307): cancel the previous handle
    if any, then arm a fresh countdown; armed only while fullConversationSync
    is enabled. -/
def resetIdleTimer (st : SyncState) (nowMs : Nat) : SyncState :=
  if st.settings.fullConversationSync = false then st
  else
    let ts1 :=
      match st.idleTimer with
      | some h => clearTimeout st.timers h
      | none => st.timers
    let r := setTimeout ts1 (nowMs + Tms st.settings)
    { st with timers := r.1, idleTimer := some r.2 }

/-- JavaScript truthiness of the lastSyncedChatId variable (null and the
    empty string are falsy). -/
def truthyId : Option String → Bool
  | none => false
  | some s => if s = "" then false else true

/-- The CHAT_CHANGED handler (src/index.js lines 355-366): when a previous
    chat id is being tracked, first run one full-conversation sync against
    the context the host presents, then record the new chat id and rearm the
    idle timer. Returns the new state and the request the sync issued. -/
def chatChangedHandler (st : SyncState) (ctx : Context) (net : Net) (now : String) (nowMs : Nat) :
    SyncState × Option Payload :=
  let r :=
    if truthyId st.lastSyncedChatId then
      let o := syncFullConversation st ctx net now
      (o.state, o.request)
    else (st, (none : Option Payload))
  let st2 := { r.1 with lastSyncedChatId := some ctx.chatId }
  (resetIdleTimer st2 nowMs, r.2)

/-- The backward scan for the nearest user message strictly before the given
    index (src/index.js lines 330-336). -/
def findUserBefore (chat : List ChatMsg) : Nat → Option ChatMsg
  | 0 => none
  | j + 1 =>
    match chat[j]? with
    | some m => if m.is_user then some m else findUserBefore chat j
    | none => findUserBefore chat j

/-- The userText binding of the handler: the found user message's text, or
    the empty string when the scan finds none. -/
def userTextAt (chat : List ChatMsg) (messageIndex : Nat) : String :=
  match findUserBefore chat messageIndex with
  | some m => m.mes
  | none => ""

/-- The MESSAGE_RECEIVED handler (src/index.js lines 317-350): locate the
    assistant message at the fired index and the nearest preceding user
    message, run the real-time sync, then rearm the idle timer. Guard
    failures leave the state untouched and do not touch the timer. -/
def messageReceivedHandler (st : SyncState) (ctx : Context) (net : Net)
    (messageIndex : Nat) (now : String) (nowMs : Nat) : SyncState × Option MsgOutcome :=
  if st.settings.enabled = false then (st, none)
  else if ctx.chat.length < 2 then (st, none)
  else
    match ctx.chat[messageIndex]? with
    | none => (st, none)
    | some aiMsg =>
      if aiMsg.is_user then (st, none)
      else
        let o := syncMessage st net (userTextAt ctx.chat messageIndex) aiMsg.mes ctx.chatId ctx.characterName now
        (resetIdleTimer o.state nowMs, some o)

/-- Fixed inputs of an event-loop run: the host context, the transport oracle,
    the timestamp string and the index MESSAGE_RECEIVED fires with. -/
structure RunParams where
  ctx : Context
  net : Net
  now : String
  messageIndex : Nat

/-- Fire every pending timer whose deadline has passed by time t, in order;
    each firing runs the idle callback, which is syncFullConversation.
    Returns the new state and the number of callbacks that ran. -/
def fireTimers (st : SyncState) (t : Nat) (ctx : Context) (net : Net) (now : String) : SyncState × Nat :=
  let due := st.timers.pending.filter fun p => p.2 ≤ t
  let rest := st.timers.pending.filter fun p => t < p.2
  let st1 := { st with timers := { st.timers with pending := rest } }
  (due.foldl (fun s _ => (syncFullConversation s ctx net now).state) st1, due.length)

/-- State of an event-loop run: the extension state plus how many idle
    callbacks have fired so far. -/
structure RunState where
  st : SyncState
  fires : Nat

/-- Processing one turn event at time t: first fire whatever timers came due,
    then run the MESSAGE_RECEIVED handler. -/
def turnStep (P : RunParams) (rs : RunState) (t : Nat) : RunState :=
  let f := fireTimers rs.st t P.ctx P.net P.now
  let h := messageReceivedHandler f.1 P.ctx P.net P.messageIndex P.now t
  ⟨h.1, rs.fires + f.2⟩

/-- Process a list of turn events at the given times. -/
def runTurns (P : RunParams) (rs : RunState) (times : List Nat) : RunState :=
  times.foldl (turnStep P) rs

/-- Event times are nondecreasing and each gap is below T milliseconds. -/
def gapsOk (T : Nat) : Nat → List Nat → Bool
  | _, [] => true
  | prev, t :: rest => decide (prev ≤ t) && decide (t < prev + T) && gapsOk T t rest

/-! Helper lemmas about the queue trimming. -/

theorem lastN_nil (n : Nat) : lastN n ([] : List α) = [] := by
  simp [lastN]

theorem lastN_length (n : Nat) (l : List α) : (lastN n l).length = min l.length n := by
  simp [lastN]
  omega

theorem lastN_eq_reverse_take (n : Nat) (l : List α) :
    lastN n l = (l.reverse.take n).reverse := by
  rw [lastN, List.take_reverse, List.reverse_reverse]

theorem lastN_append_absorb (n : Nat) (xs ys : List α) :
    lastN n (lastN n xs ++ ys) = lastN n (xs ++ ys) := by
  rw [lastN_eq_reverse_take, lastN_eq_reverse_take n xs, lastN_eq_reverse_take]
  congr 1
  rw [List.reverse_append, List.reverse_append, List.reverse_reverse,
    List.take_append_eq_append_take, List.take_append_eq_append_take, List.take_take]
  rw [Nat.min_eq_left (Nat.sub_le _ _)]

theorem trimBuffer_eq_lastN (M : Nat) (l : List α) : trimBuffer M l = lastN M l := by
  induction l with
  | nil => simp [trimBuffer, lastN]
  | cons x rest ih =>
    rw [trimBuffer]
    by_cases h : M < rest.length + 1
    · have h2 : lastN M (x :: rest) = lastN M rest := by
        rw [lastN, lastN, show (x :: rest).length - M = (rest.length - M) + 1 from by
          simp
          omega]
        exact List.drop_succ_cons
      rw [if_pos h, ih, h2]
    · have h2 : lastN M (x :: rest) = x :: rest := by
        rw [lastN, show (x :: rest).length - M = 0 from by
          simp
          omega]
        exact List.drop_zero _
      rw [if_neg h, h2]

theorem addToBufferL_eq_lastN (M : Nat) (buf : List α) (p : α) :
    addToBufferL M buf p = lastN M (buf ++ [p]) :=
  trimBuffer_eq_lastN M (buf ++ [p])

theorem foldl_addToBufferL (M : Nat) (ps : List α) :
    ∀ acc : List α, List.foldl (addToBufferL M) (lastN M acc) ps = lastN M (acc ++ ps) := by
  induction ps with
  | nil => intro acc; simp
  | cons t ps ih =>
    intro acc
    rw [List.foldl_cons, addToBufferL_eq_lastN, lastN_append_absorb, ih (acc ++ [t])]
    simp

theorem mem_lastN_concat (n : Nat) (hn : 0 < n) (l : List α) (x : α) :
    x ∈ lastN n (l ++ [x]) := by
  rw [lastN_eq_reverse_take]
  cases n with
  | zero => omega
  | succ m =>
    simp [List.reverse_append, List.take_succ_cons]

/-- Claim C3: starting from an empty queue, a sequence of pushes through the
    addToBuffer trimming always retains exactly the min(N, M) most recent
    entries — the oldest entry is dropped on overflow, never the newest; in
    particular capacity 2 and pushes T1, T2, T3 end as the queue T2, T3, and
    the stateful addToBuffer is exactly this queue-level operation applied to
    the persisted buffer with the configured maxBufferSize. -/
theorem claim_C3_queue_bound {α : Type} (M : Nat) (ps : List α) (st : SyncState) (p : Payload)
    (t1 t2 t3 : α) :
    List.foldl (addToBufferL M) [] ps = lastN M ps ∧
    (List.foldl (addToBufferL M) [] ps).length = min ps.length M ∧
    List.foldl (addToBufferL 2) [] [t1, t2, t3] = [t2, t3] ∧
    (addToBuffer st p).buffer = addToBufferL st.settings.maxBufferSize st.buffer p := by
  have hmain : List.foldl (addToBufferL M) [] ps = lastN M ps := by
    have h := foldl_addToBufferL M ps []
    rwa [lastN_nil, List.nil_append] at h
  refine ⟨hmain, ?_, ?_, rfl⟩
  · rw [hmain, lastN_length]
  · have h := foldl_addToBufferL 2 [t1, t2, t3] []
    rw [lastN_nil, List.nil_append] at h
    rw [h]
    rfl

/-! Shared concrete fixtures used by witnesses and counterexamples. -/

def netOkAll : Net := fun _ => .ok

def netDownAll : Net := fun _ => .transportErr

def pay1 : Payload := .message "A" "u1" "a1" "c" "t"

def pay2 : Payload := .message "A" "u2" "a2" "c" "t"

def pay3 : Payload := .message "A" "u3" "a3" "c" "t"

def stBase : SyncState := ⟨defaultSettings, [], [], [], none, ⟨[], 0⟩, none⟩

def chatA : List ChatMsg := [⟨true, false, "hi", "d1"⟩, ⟨false, false, "hello", "d2"⟩]

def ctxA : Context := ⟨chatA, "convB", "Mio"⟩

def stC1 : SyncState := { stBase with buffer := [pay1, pay2, pay3] }

/-- Claim C1 (code bug): the flush loop does preserve FIFO order and does
    continue past per-item HTTP failures, but on the first transport-level
    failure at position k it breaks after pushing only entry k to remaining,
    so saveBuffer(remaining) silently discards the not-yet-tried entries
    k+1..end. With queue pay1, pay2, pay3 and an unreachable transport, only
    pay1 is attempted and the persisted queue afterwards is just the
    singleton pay1 — not pay1, pay2, pay3 as the claim requires. -/
theorem claim_C1_flush_drops_untried :
    (flushBuffer stC1 netDownAll).1.buffer = [pay1] ∧
    (flushBuffer stC1 netDownAll).2 = [pay1] ∧
    ¬ (flushBuffer stC1 netDownAll).1.buffer = [pay1, pay2, pay3] := by
  decide

/-! Frame lemmas: which state fields each operation leaves untouched. -/

theorem flushBuffer_frame (st : SyncState) (net : Net) :
    (flushBuffer st net).1.settings = st.settings ∧
    (flushBuffer st net).1.syncedHashes = st.syncedHashes ∧
    (flushBuffer st net).1.storedHashes = st.storedHashes ∧
    (flushBuffer st net).1.lastSyncedChatId = st.lastSyncedChatId ∧
    (flushBuffer st net).1.timers = st.timers ∧
    (flushBuffer st net).1.idleTimer = st.idleTimer := by
  unfold flushBuffer
  split <;> simp

theorem addToBuffer_frame (st : SyncState) (p : Payload) :
    (addToBuffer st p).settings = st.settings ∧
    (addToBuffer st p).syncedHashes = st.syncedHashes ∧
    (addToBuffer st p).storedHashes = st.storedHashes ∧
    (addToBuffer st p).lastSyncedChatId = st.lastSyncedChatId ∧
    (addToBuffer st p).timers = st.timers ∧
    (addToBuffer st p).idleTimer = st.idleTimer := by
  simp [addToBuffer]

theorem saveSyncedHashes_frame (st : SyncState) :
    (saveSyncedHashes st).settings = st.settings ∧
    (saveSyncedHashes st).syncedHashes = st.syncedHashes ∧
    (saveSyncedHashes st).buffer = st.buffer ∧
    (saveSyncedHashes st).lastSyncedChatId = st.lastSyncedChatId ∧
    (saveSyncedHashes st).timers = st.timers ∧
    (saveSyncedHashes st).idleTimer = st.idleTimer := by
  simp [saveSyncedHashes]

theorem deliverAndHandle_ok (st1 : SyncState) (net : Net) (payload : Payload) (now : String)
    (hnet : net payload = .ok) :
    deliverAndHandle st1 net payload now =
      ⟨(flushBuffer { st1 with settings := { st1.settings with lastSyncTime := some now } } net).1,
       some payload,
       (flushBuffer { st1 with settings := { st1.settings with lastSyncTime := some now } } net).2,
       1, .delivered⟩ := by
  unfold deliverAndHandle
  rw [hnet]

theorem deliverAndHandle_fail (st1 : SyncState) (net : Net) (payload : Payload) (now : String)
    (hnet : net payload ≠ .ok) :
    deliverAndHandle st1 net payload now =
      ⟨(if st1.settings.offlineBuffer then addToBuffer st1 payload else st1),
       some payload, [], 0,
       (if st1.settings.offlineBuffer then .failedBuffered else .failedDropped)⟩ := by
  unfold deliverAndHandle
  cases h : net payload
  · exact absurd h hnet
  · rfl
  · rfl

theorem deliverAndHandle_frame (st1 : SyncState) (net : Net) (payload : Payload) (now : String) :
    (deliverAndHandle st1 net payload now).state.syncedHashes = st1.syncedHashes ∧
    (deliverAndHandle st1 net payload now).state.storedHashes = st1.storedHashes ∧
    (deliverAndHandle st1 net payload now).state.lastSyncedChatId = st1.lastSyncedChatId ∧
    (deliverAndHandle st1 net payload now).state.timers = st1.timers ∧
    (deliverAndHandle st1 net payload now).state.idleTimer = st1.idleTimer ∧
    (deliverAndHandle st1 net payload now).state.settings.enabled = st1.settings.enabled ∧
    (deliverAndHandle st1 net payload now).state.settings.realtimeSync = st1.settings.realtimeSync ∧
    (deliverAndHandle st1 net payload now).state.settings.fullConversationSync = st1.settings.fullConversationSync ∧
    (deliverAndHandle st1 net payload now).state.settings.idleTimeoutMinutes = st1.settings.idleTimeoutMinutes ∧
    (deliverAndHandle st1 net payload now).state.settings.dedup = st1.settings.dedup ∧
    (deliverAndHandle st1 net payload now).state.settings.offlineBuffer = st1.settings.offlineBuffer ∧
    (deliverAndHandle st1 net payload now).state.settings.maxBufferSize = st1.settings.maxBufferSize := by
  by_cases h : net payload = .ok
  · rw [deliverAndHandle_ok st1 net payload now h]
    obtain ⟨h1, h2, h3, h4, h5, h6⟩ := flushBuffer_frame
      { st1 with settings := { st1.settings with lastSyncTime := some now } } net
    simp [h1, h2, h3, h4, h5, h6]
  · rw [deliverAndHandle_fail st1 net payload now h]
    by_cases hb : st1.settings.offlineBuffer = true <;> simp [hb, addToBuffer]

/-! Characterizations of the exits syncMessage can take. -/

theorem syncMessage_disabled (st : SyncState) (net : Net) (u a c ch t : String)
    (h : ¬(st.settings.enabled = true ∧ st.settings.realtimeSync = true)) :
    syncMessage st net u a c ch t = ⟨st, none, [], 0, .disabled⟩ := by
  unfold syncMessage
  rw [if_neg h]

theorem syncMessage_skip (st : SyncState) (net : Net) (u a c ch t : String)
    (hen : st.settings.enabled = true) (hrt : st.settings.realtimeSync = true)
    (hd : st.settings.dedup = true) (hmem : hashMessage u a ∈ st.syncedHashes) :
    syncMessage st net u a c ch t = ⟨st, none, [], 0, .dedupSkip (hashMessage u a)⟩ := by
  unfold syncMessage
  simp [hen, hrt, hd, hmem]

theorem syncMessage_fresh (st : SyncState) (net : Net) (u a c ch t : String)
    (hen : st.settings.enabled = true) (hrt : st.settings.realtimeSync = true)
    (hd : st.settings.dedup = true) (hmem : hashMessage u a ∉ st.syncedHashes) :
    syncMessage st net u a c ch t =
      deliverAndHandle
        (saveSyncedHashes { st with syncedHashes := st.syncedHashes ++ [hashMessage u a] })
        net (mkMessagePayload ch u a c t) t := by
  unfold syncMessage
  simp [hen, hrt, hd, hmem, setAdd]

theorem syncMessage_nodedup (st : SyncState) (net : Net) (u a c ch t : String)
    (hen : st.settings.enabled = true) (hrt : st.settings.realtimeSync = true)
    (hd : st.settings.dedup = false) :
    syncMessage st net u a c ch t = deliverAndHandle st net (mkMessagePayload ch u a c t) t := by
  unfold syncMessage
  simp [hen, hrt, hd]

/-! Characterizations of syncFullConversation. -/

theorem syncFullConversation_frame (st : SyncState) (ctx : Context) (net : Net) (now : String) :
    (syncFullConversation st ctx net now).state.settings = st.settings ∧
    (syncFullConversation st ctx net now).state.buffer = st.buffer ∧
    (syncFullConversation st ctx net now).flushCalls = 0 ∧
    (syncFullConversation st ctx net now).state.timers = st.timers ∧
    (syncFullConversation st ctx net now).state.idleTimer = st.idleTimer ∧
    (syncFullConversation st ctx net now).state.lastSyncedChatId = st.lastSyncedChatId := by
  by_cases hg : (st.settings.enabled = true ∧ st.settings.fullConversationSync = true)
  · by_cases hlen : ctx.chat.length < 2
    · simp [syncFullConversation, hg.1, hg.2, hlen]
    · by_cases hmem : ("full_" ++ fullConversationHash ctx.chat) ∈ st.syncedHashes
      · simp [syncFullConversation, hg.1, hg.2, hlen, hmem]
      · cases hn : net (Payload.fullConversation ctx.characterName ctx.chatId
            (buildMessages ctx.chat ctx.characterName).length
            (buildMessages ctx.chat ctx.characterName) now) <;>
          simp [syncFullConversation, hg.1, hg.2, hlen, hmem, hn, saveSyncedHashes]
  · unfold syncFullConversation
    rw [if_neg hg]
    exact ⟨rfl, rfl, rfl, rfl, rfl, rfl⟩

theorem syncFullConversation_suppressed (st : SyncState) (ctx : Context) (net : Net) (now : String)
    (hen : st.settings.enabled = true) (hfc : st.settings.fullConversationSync = true)
    (hlen : ¬ ctx.chat.length < 2)
    (hmem : ("full_" ++ fullConversationHash ctx.chat) ∈ st.syncedHashes) :
    syncFullConversation st ctx net now = ⟨st, none, 0, .alreadySynced⟩ := by
  unfold syncFullConversation
  simp [hen, hfc, hlen, hmem]

theorem syncFullConversation_request_isSome (st : SyncState) (ctx : Context) (net : Net) (now : String) :
    (syncFullConversation st ctx net now).request.isSome = true ↔
      (st.settings.enabled = true ∧ st.settings.fullConversationSync = true ∧
       2 ≤ ctx.chat.length ∧ ("full_" ++ fullConversationHash ctx.chat) ∉ st.syncedHashes) := by
  by_cases hen : st.settings.enabled = true
  · by_cases hfc : st.settings.fullConversationSync = true
    · by_cases hlen : ctx.chat.length < 2
      · simp [syncFullConversation, hen, hfc, hlen]
        try omega
      · by_cases hmem : ("full_" ++ fullConversationHash ctx.chat) ∈ st.syncedHashes
        · simp [syncFullConversation, hen, hfc, hlen, hmem]
        · cases hn : net (Payload.fullConversation ctx.characterName ctx.chatId
              (buildMessages ctx.chat ctx.characterName).length
              (buildMessages ctx.chat ctx.characterName) now) <;>
            simp [syncFullConversation, hen, hfc, hlen, hmem, hn] <;> try omega
    · simp [syncFullConversation, hen, hfc]
  · simp [syncFullConversation, hen]

theorem syncFullConversation_request_eq (st : SyncState) (ctx : Context) (net : Net) (now : String)
    (p : Payload) (h : (syncFullConversation st ctx net now).request = some p) :
    p = .fullConversation ctx.characterName ctx.chatId
          (buildMessages ctx.chat ctx.characterName).length
          (buildMessages ctx.chat ctx.characterName) now := by
  by_cases hg : (st.settings.enabled = true ∧ st.settings.fullConversationSync = true)
  · by_cases hlen : ctx.chat.length < 2
    · simp [syncFullConversation, hg.1, hg.2, hlen] at h
    · by_cases hmem : ("full_" ++ fullConversationHash ctx.chat) ∈ st.syncedHashes
      · simp [syncFullConversation, hg.1, hg.2, hlen, hmem] at h
      · cases hn : net (Payload.fullConversation ctx.characterName ctx.chatId
            (buildMessages ctx.chat ctx.characterName).length
            (buildMessages ctx.chat ctx.characterName) now) <;>
          simp [syncFullConversation, hg.1, hg.2, hlen, hmem, hn] at h <;> exact h.symm
  · unfold syncFullConversation at h
    rw [if_neg hg] at h
    simp at h

theorem resetIdleTimer_frame (st : SyncState) (nowMs : Nat) :
    (resetIdleTimer st nowMs).settings = st.settings ∧
    (resetIdleTimer st nowMs).syncedHashes = st.syncedHashes ∧
    (resetIdleTimer st nowMs).storedHashes = st.storedHashes ∧
    (resetIdleTimer st nowMs).buffer = st.buffer ∧
    (resetIdleTimer st nowMs).lastSyncedChatId = st.lastSyncedChatId := by
  unfold resetIdleTimer
  split
  · exact ⟨rfl, rfl, rfl, rfl, rfl⟩
  · simp

theorem deliverAndHandle_fail_props (st1 : SyncState) (net : Net) (payload : Payload) (now : String)
    (hnet : net payload ≠ .ok) :
    (deliverAndHandle st1 net payload now).request = some payload ∧
    (deliverAndHandle st1 net payload now).flushCalls = 0 ∧
    (st1.settings.offlineBuffer = true →
      (deliverAndHandle st1 net payload now).exit = .failedBuffered ∧
      (deliverAndHandle st1 net payload now).state.buffer =
        addToBufferL st1.settings.maxBufferSize st1.buffer payload) ∧
    (st1.settings.offlineBuffer = false →
      (deliverAndHandle st1 net payload now).exit = .failedDropped ∧
      (deliverAndHandle st1 net payload now).state.buffer = st1.buffer) ∧
    (∀ m, (deliverAndHandle st1 net payload now).exit ≠ .raised m) := by
  rw [deliverAndHandle_fail _ _ _ _ hnet]
  refine ⟨rfl, rfl, ?_, ?_, ?_⟩
  · intro hb
    simp [hb, addToBuffer]
  · intro hb
    simp [hb]
  · intro m
    split <;> simp

theorem deliverAndHandle_exit_flush (st1 : SyncState) (net : Net) (payload : Payload) (now : String) :
    ((deliverAndHandle st1 net payload now).exit = .delivered →
      (deliverAndHandle st1 net payload now).state.settings.lastSyncTime = some now ∧
      (deliverAndHandle st1 net payload now).flushCalls = 1) ∧
    ((deliverAndHandle st1 net payload now).exit ≠ .delivered →
      (deliverAndHandle st1 net payload now).flushCalls = 0) := by
  by_cases hnet : net payload = .ok
  · rw [deliverAndHandle_ok _ _ _ _ hnet]
    refine ⟨fun _ => ⟨?_, rfl⟩, fun hne => absurd rfl hne⟩
    have hf := (flushBuffer_frame
      { st1 with settings := { st1.settings with lastSyncTime := some now } } net).1
    rw [hf]
  · rw [deliverAndHandle_fail _ _ _ _ hnet]
    constructor
    · intro hde
      exfalso
      revert hde
      split <;> simp
    · intro _
      rfl

theorem syncMessage_fresh_state (st : SyncState) (net : Net) (u a c ch t : String)
    (hen : st.settings.enabled = true) (hrt : st.settings.realtimeSync = true)
    (hd : st.settings.dedup = true) (hmem : hashMessage u a ∉ st.syncedHashes) :
    (syncMessage st net u a c ch t).state.syncedHashes = st.syncedHashes ++ [hashMessage u a] ∧
    (syncMessage st net u a c ch t).state.storedHashes = lastN 500 (st.syncedHashes ++ [hashMessage u a]) ∧
    (syncMessage st net u a c ch t).state.settings.enabled = st.settings.enabled ∧
    (syncMessage st net u a c ch t).state.settings.realtimeSync = st.settings.realtimeSync ∧
    (syncMessage st net u a c ch t).state.settings.dedup = st.settings.dedup := by
  rw [syncMessage_fresh st net u a c ch t hen hrt hd hmem]
  obtain ⟨h1, h2, _, _, _, h6, h7, _, _, h10, _, _⟩ := deliverAndHandle_frame
    (saveSyncedHashes { st with syncedHashes := st.syncedHashes ++ [hashMessage u a] })
    net (mkMessagePayload ch u a c t) t
  exact ⟨h1, h2, h6, h7, h10⟩

/-! Fixtures and theorems for the remaining claims. -/

def stC2 : SyncState :=
  { stBase with
    syncedHashes := ["full_" ++ fullConversationHash chatA]
    lastSyncedChatId := some "convA" }

/-- Claim C2 (counterexample): a conversation-switch notification arriving
    while the previous id convA is tracked, with sync fully enabled and a
    nontrivial two-message conversation in the context, submits zero
    full-conversation payloads, because the conversation's fingerprint is
    already recorded (e.g. the idle timer already synced it) — the claim
    demands exactly one. -/
theorem claim_C2_counterexample :
    truthyId stC2.lastSyncedChatId = true ∧
    stC2.settings.enabled = true ∧
    stC2.settings.fullConversationSync = true ∧
    2 ≤ ctxA.chat.length ∧
    (chatChangedHandler stC2 ctxA netOkAll "t" 0).2 = none := by
  decide

/-- Claim C2 (amended): on a conversation-switch notification with a truthy
    tracked previous id, the handler runs exactly one full-conversation sync
    attempt against the pre-switch state and the context the host presents,
    before updating the tracked id; at most one payload results, and one is
    actually submitted exactly when sync and full-conversation sync are
    enabled, the context's chat has at least two entries, and the snapshot
    fingerprint is not already recorded; any submitted payload covers the
    context's message history. Event processing is sequential, so all of
    this completes before any later event is handled. -/
theorem claim_C2_switch_sync (st : SyncState) (ctx : Context) (net : Net) (now : String) (nowMs : Nat)
    (htr : truthyId st.lastSyncedChatId = true) :
    (chatChangedHandler st ctx net now nowMs).1.lastSyncedChatId = some ctx.chatId ∧
    (chatChangedHandler st ctx net now nowMs).2 = (syncFullConversation st ctx net now).request ∧
    ((chatChangedHandler st ctx net now nowMs).2.isSome = true ↔
      (st.settings.enabled = true ∧ st.settings.fullConversationSync = true ∧
       2 ≤ ctx.chat.length ∧ ("full_" ++ fullConversationHash ctx.chat) ∉ st.syncedHashes)) ∧
    (∀ p, (chatChangedHandler st ctx net now nowMs).2 = some p →
      p = .fullConversation ctx.characterName ctx.chatId
            (buildMessages ctx.chat ctx.characterName).length
            (buildMessages ctx.chat ctx.characterName) now) := by
  have hunf : chatChangedHandler st ctx net now nowMs =
      (resetIdleTimer
        { (syncFullConversation st ctx net now).state with lastSyncedChatId := some ctx.chatId } nowMs,
       (syncFullConversation st ctx net now).request) := by
    unfold chatChangedHandler
    rw [if_pos htr]
  rw [hunf]
  refine ⟨?_, rfl, ?_, ?_⟩
  · have hfr := (resetIdleTimer_frame
      { (syncFullConversation st ctx net now).state with lastSyncedChatId := some ctx.chatId } nowMs).2.2.2.2
    rw [hfr]
  · exact syncFullConversation_request_isSome st ctx net now
  · intro p hp
    exact syncFullConversation_request_eq st ctx net now p hp

def stC2b : SyncState := { stBase with lastSyncedChatId := some "convA" }

/-- Witness for claim C2's amended theorem: a switch away from tracked convA
    with a fresh two-message conversation updates the tracked id and submits
    a payload, the submission condition holding. -/
theorem claim_C2_switch_sync_witness :
    truthyId stC2b.lastSyncedChatId = true ∧
    (chatChangedHandler stC2b ctxA netOkAll "t" 0).1.lastSyncedChatId = some ctxA.chatId ∧
    ((chatChangedHandler stC2b ctxA netOkAll "t" 0).2.isSome = true ↔
      (stC2b.settings.enabled = true ∧ stC2b.settings.fullConversationSync = true ∧
       2 ≤ ctxA.chat.length ∧ ("full_" ++ fullConversationHash ctxA.chat) ∉ stC2b.syncedHashes)) :=
  ⟨rfl, (claim_C2_switch_sync stC2b ctxA netOkAll "t" 0 rfl).1,
   (claim_C2_switch_sync stC2b ctxA netOkAll "t" 0 rfl).2.2.1⟩

def stC4 : SyncState :=
  { stBase with
    settings := { defaultSettings with dedup := false }
    syncedHashes := ["full_" ++ fullConversationHash chatA] }

/-- Claim C4 (counterexample): with the dedup setting off, a full-conversation
    payload whose fingerprint is already in the set is still suppressed and
    never handed to delivery — the full-conversation suppression at
    src/index.js line 248 is not guarded by settings.dedup, contradicting the
    claim that with dedup off no payload is ever suppressed and the set is
    never read. -/
theorem claim_C4_counterexample :
    stC4.settings.dedup = false ∧
    (syncFullConversation stC4 ctxA netOkAll "t").request = none ∧
    (syncFullConversation stC4 ctxA netOkAll "t").exit = .alreadySynced := by
  decide

/-- Claim C4 (amended): with the dedup setting off, message-kind payloads are
    indeed never suppressed and the fingerprint set is neither read nor
    mutated on that path (and the payload always reaches delivery when the
    realtime path is enabled); full-conversation payloads, however, keep
    using the fingerprint set for suppression regardless of the dedup
    setting. -/
theorem claim_C4_dedup_disabled (st : SyncState) (hd : st.settings.dedup = false) :
    (∀ (net : Net) (u a c ch t : String),
      (syncMessage st net u a c ch t).state.syncedHashes = st.syncedHashes ∧
      (syncMessage st net u a c ch t).state.storedHashes = st.storedHashes ∧
      (∀ hh, (syncMessage st net u a c ch t).exit ≠ .dedupSkip hh) ∧
      (st.settings.enabled = true → st.settings.realtimeSync = true →
        (syncMessage st net u a c ch t).request = some (mkMessagePayload ch u a c t))) ∧
    (∀ (ctx : Context) (net : Net) (now : String),
      st.settings.enabled = true → st.settings.fullConversationSync = true →
      2 ≤ ctx.chat.length →
      ("full_" ++ fullConversationHash ctx.chat) ∈ st.syncedHashes →
      (syncFullConversation st ctx net now).request = none) := by
  constructor
  · intro net u a c ch t
    by_cases hg : (st.settings.enabled = true ∧ st.settings.realtimeSync = true)
    · rw [syncMessage_nodedup st net u a c ch t hg.1 hg.2 hd]
      obtain ⟨h1, h2, _⟩ := deliverAndHandle_frame st net (mkMessagePayload ch u a c t) t
      refine ⟨h1, h2, ?_, ?_⟩
      · intro hh
        by_cases hnet : net (mkMessagePayload ch u a c t) = .ok
        · rw [deliverAndHandle_ok _ _ _ _ hnet]
          simp
        · rw [deliverAndHandle_fail _ _ _ _ hnet]
          split <;> simp
      · intro _ _
        by_cases hnet : net (mkMessagePayload ch u a c t) = .ok
        · rw [deliverAndHandle_ok _ _ _ _ hnet]
        · rw [deliverAndHandle_fail _ _ _ _ hnet]
    · rw [syncMessage_disabled st net u a c ch t hg]
      refine ⟨rfl, rfl, by simp, ?_⟩
      intro he hr
      exact absurd ⟨he, hr⟩ hg
  · intro ctx net now hen hfc hlen hmem
    rw [syncFullConversation_suppressed st ctx net now hen hfc (by omega) hmem]

/-- Witness for claim C4's amended theorem at a concrete state with dedup
    off: the message path leaves the set untouched while the already
    fingerprinted full conversation is still suppressed. -/
theorem claim_C4_dedup_disabled_witness :
    stC4.settings.dedup = false ∧
    (syncMessage stC4 netOkAll "u" "a" "c" "Ch" "t").state.syncedHashes = stC4.syncedHashes ∧
    (syncFullConversation stC4 ctxA netOkAll "t2").request = none :=
  ⟨rfl, ((claim_C4_dedup_disabled stC4 rfl).1 netOkAll "u" "a" "c" "Ch" "t").1,
   (claim_C4_dedup_disabled stC4 rfl).2 ctxA netOkAll "t2" rfl rfl (by decide) (by decide)⟩

def stC5 : SyncState :=
  loadSyncedHashes { stBase with storedHashes := (List.range 500).map (fun n => toString n) }

/-- Claim C5 (counterexample): a session that starts from a full persisted
    record of 500 fingerprints and then processes one fresh turn holds 501
    fingerprints in the in-memory set — the 500 cap is enforced only on the
    persisted record (slice(-500) in saveSyncedHashes/loadSyncedHashes),
    never on the in-memory Set, contradicting the at-most-500-at-every-point
    claim. -/
theorem claim_C5_counterexample :
    stC5.syncedHashes.length = 500 ∧
    (syncMessage stC5 netOkAll "x" "" "c" "Ch" "t").state.syncedHashes.length = 501 ∧
    ¬ (syncMessage stC5 netOkAll "x" "" "c" "Ch" "t").state.syncedHashes.length ≤ 500 := by
  decide

/-- Claim C5 (amended): the persisted fingerprint record always holds at most
    500 fingerprints — exactly the most recent min(n, 500) in insertion
    order, a suffix of the in-memory set, so the oldest are evicted first —
    and loading caps the in-memory set the same way; during a session,
    however, the in-memory set itself is not trimmed and can exceed 500. -/
theorem claim_C5_fingerprint_bound (st : SyncState) :
    (saveSyncedHashes st).storedHashes.length = min st.syncedHashes.length 500 ∧
    List.IsSuffix (saveSyncedHashes st).storedHashes st.syncedHashes ∧
    (loadSyncedHashes st).syncedHashes.length = min st.storedHashes.length 500 ∧
    List.IsSuffix (loadSyncedHashes st).syncedHashes st.storedHashes ∧
    (saveSyncedHashes st).syncedHashes = st.syncedHashes := by
  refine ⟨?_, ?_, ?_, ?_, rfl⟩
  · simp [saveSyncedHashes, lastN_length]
  · simp only [saveSyncedHashes, lastN]
    exact List.drop_suffix _ _
  · simp [loadSyncedHashes, lastN_length]
  · simp only [loadSyncedHashes, lastN]
    exact List.drop_suffix _ _

def stC6 : SyncState := { stBase with buffer := [pay1] }

/-- Claim C6 (counterexample): a full-conversation delivery that receives a
    2xx response records only the fingerprint: lastSyncTime stays untouched
    and no offline-queue flush is attempted even with a nonempty queue —
    contradicting the claim that every 2xx delivery records lastSyncTime and
    flushes once. -/
theorem claim_C6_counterexample :
    (syncFullConversation stC6 ctxA netOkAll "T").exit = .delivered ∧
    (syncFullConversation stC6 ctxA netOkAll "T").flushCalls = 0 ∧
    (syncFullConversation stC6 ctxA netOkAll "T").state.settings.lastSyncTime = none ∧
    (syncFullConversation stC6 ctxA netOkAll "T").state.buffer = [pay1] ∧
    ¬ ((syncFullConversation stC6 ctxA netOkAll "T").flushCalls = 1 ∧
       (syncFullConversation stC6 ctxA netOkAll "T").state.settings.lastSyncTime = some "T") := by
  decide

/-- Claim C6 (amended): a message-kind delivery that receives 2xx records the
    current timestamp as lastSyncTime and attempts exactly one offline-queue
    flush, and any other message-kind exit attempts none; a full-conversation
    delivery never attempts a flush and never touches the settings (so never
    lastSyncTime), whatever the response; the only flush triggers are thus a
    successful message delivery and the explicit manual flush. -/
theorem claim_C6_flush_trigger (st st2 : SyncState) (net net2 : Net) (u a c ch t : String)
    (ctx : Context) (now : String) :
    ((syncMessage st net u a c ch t).exit = .delivered →
      (syncMessage st net u a c ch t).state.settings.lastSyncTime = some t ∧
      (syncMessage st net u a c ch t).flushCalls = 1) ∧
    ((syncMessage st net u a c ch t).exit ≠ .delivered →
      (syncMessage st net u a c ch t).flushCalls = 0) ∧
    (syncFullConversation st2 ctx net2 now).flushCalls = 0 ∧
    (syncFullConversation st2 ctx net2 now).state.settings = st2.settings := by
  have hfull := syncFullConversation_frame st2 ctx net2 now
  refine ⟨?_, ?_, hfull.2.2.1, hfull.1⟩
  · intro hde
    by_cases hg : (st.settings.enabled = true ∧ st.settings.realtimeSync = true)
    · by_cases hd : st.settings.dedup = true
      · by_cases hmem : hashMessage u a ∈ st.syncedHashes
        · rw [syncMessage_skip st net u a c ch t hg.1 hg.2 hd hmem] at hde ⊢
          simp at hde
        · rw [syncMessage_fresh st net u a c ch t hg.1 hg.2 hd hmem] at hde ⊢
          exact (deliverAndHandle_exit_flush _ net _ t).1 hde
      · have hd2 : st.settings.dedup = false := by
          revert hd
          cases st.settings.dedup <;> simp
        rw [syncMessage_nodedup st net u a c ch t hg.1 hg.2 hd2] at hde ⊢
        exact (deliverAndHandle_exit_flush _ net _ t).1 hde
    · rw [syncMessage_disabled st net u a c ch t hg] at hde
      simp at hde
  · intro hde
    by_cases hg : (st.settings.enabled = true ∧ st.settings.realtimeSync = true)
    · by_cases hd : st.settings.dedup = true
      · by_cases hmem : hashMessage u a ∈ st.syncedHashes
        · rw [syncMessage_skip st net u a c ch t hg.1 hg.2 hd hmem]
        · rw [syncMessage_fresh st net u a c ch t hg.1 hg.2 hd hmem] at hde ⊢
          exact (deliverAndHandle_exit_flush _ net _ t).2 hde
      · have hd2 : st.settings.dedup = false := by
          revert hd
          cases st.settings.dedup <;> simp
        rw [syncMessage_nodedup st net u a c ch t hg.1 hg.2 hd2] at hde ⊢
        exact (deliverAndHandle_exit_flush _ net _ t).2 hde
    · rw [syncMessage_disabled st net u a c ch t hg]

/-- Witness for claim C6's amended theorem: a concrete delivered message
    records the timestamp and flushes once, and a concrete delivered full
    conversation flushes zero times. -/
theorem claim_C6_flush_trigger_witness :
    (syncMessage stBase netOkAll "u" "a" "c" "Ch" "t").exit = .delivered ∧
    (syncMessage stBase netOkAll "u" "a" "c" "Ch" "t").state.settings.lastSyncTime = some "t" ∧
    (syncMessage stBase netOkAll "u" "a" "c" "Ch" "t").flushCalls = 1 ∧
    (syncFullConversation stBase ctxA netOkAll "T").flushCalls = 0 :=
  ⟨by decide,
   ((claim_C6_flush_trigger stBase stBase netOkAll netOkAll "u" "a" "c" "Ch" "t" ctxA "T").1 (by decide)).1,
   ((claim_C6_flush_trigger stBase stBase netOkAll netOkAll "u" "a" "c" "Ch" "t" ctxA "T").1 (by decide)).2,
   (claim_C6_flush_trigger stBase stBase netOkAll netOkAll "u" "a" "c" "Ch" "t" ctxA "T").2.2.1⟩

/-- Claim C7: a message delivery attempt that fails — non-2xx status or
    transport error alike — appends the payload to the offline queue exactly
    when offlineBuffer is enabled (and leaves the queue untouched otherwise),
    never triggers a flush, and always returns through the catch block with a
    normal failure exit: no exception reaches the caller. -/
theorem claim_C7_failure_buffering (st : SyncState) (net : Net) (u a c ch t : String)
    (hen : st.settings.enabled = true) (hrt : st.settings.realtimeSync = true)
    (hns : ¬(st.settings.dedup = true ∧ hashMessage u a ∈ st.syncedHashes))
    (hnet : net (mkMessagePayload ch u a c t) ≠ .ok) :
    (syncMessage st net u a c ch t).request = some (mkMessagePayload ch u a c t) ∧
    (syncMessage st net u a c ch t).flushCalls = 0 ∧
    (st.settings.offlineBuffer = true →
      (syncMessage st net u a c ch t).exit = .failedBuffered ∧
      (syncMessage st net u a c ch t).state.buffer =
        addToBufferL st.settings.maxBufferSize st.buffer (mkMessagePayload ch u a c t)) ∧
    (st.settings.offlineBuffer = false →
      (syncMessage st net u a c ch t).exit = .failedDropped ∧
      (syncMessage st net u a c ch t).state.buffer = st.buffer) ∧
    (∀ m, (syncMessage st net u a c ch t).exit ≠ .raised m) := by
  by_cases hd : st.settings.dedup = true
  · have hmem : hashMessage u a ∉ st.syncedHashes := fun hm => hns ⟨hd, hm⟩
    rw [syncMessage_fresh st net u a c ch t hen hrt hd hmem]
    exact deliverAndHandle_fail_props _ net _ t hnet
  · have hd2 : st.settings.dedup = false := by
      revert hd
      cases st.settings.dedup <;> simp
    rw [syncMessage_nodedup st net u a c ch t hen hrt hd2]
    exact deliverAndHandle_fail_props _ net _ t hnet

/-- Witness for claim C7 at a concrete offline transport: the failed payload
    lands in the queue and the call exits normally. -/
theorem claim_C7_failure_buffering_witness :
    (stBase.settings.enabled = true ∧ stBase.settings.realtimeSync = true ∧
      ¬(stBase.settings.dedup = true ∧ hashMessage "u" "a" ∈ stBase.syncedHashes) ∧
      netDownAll (mkMessagePayload "Ch" "u" "a" "c" "t") ≠ .ok) ∧
    (syncMessage stBase netDownAll "u" "a" "c" "Ch" "t").request
      = some (mkMessagePayload "Ch" "u" "a" "c" "t") ∧
    ((syncMessage stBase netDownAll "u" "a" "c" "Ch" "t").exit = .failedBuffered ∧
      (syncMessage stBase netDownAll "u" "a" "c" "Ch" "t").state.buffer =
        addToBufferL stBase.settings.maxBufferSize stBase.buffer (mkMessagePayload "Ch" "u" "a" "c" "t")) ∧
    (∀ m, (syncMessage stBase netDownAll "u" "a" "c" "Ch" "t").exit ≠ .raised m) :=
  ⟨⟨rfl, rfl, by decide, by decide⟩,
   (claim_C7_failure_buffering stBase netDownAll "u" "a" "c" "Ch" "t" rfl rfl (by decide) (by decide)).1,
   (claim_C7_failure_buffering stBase netDownAll "u" "a" "c" "Ch" "t" rfl rfl (by decide) (by decide)).2.2.1 rfl,
   (claim_C7_failure_buffering stBase netDownAll "u" "a" "c" "Ch" "t" rfl rfl (by decide) (by decide)).2.2.2.2⟩

/-- Claim C8: with dedup enabled, running the filter twice on identical
    content suppresses the second call entirely — no request, no flush, state
    unchanged — and the fingerprint set afterwards contains exactly one entry
    for that content, never a duplicate; together with the second call being
    requestless, at most one outbound request results from the pair. -/
theorem claim_C8_dedup_idempotent (st : SyncState) (net1 net2 : Net)
    (u a c1 ch1 t1 c2 ch2 t2 : String)
    (hen : st.settings.enabled = true) (hrt : st.settings.realtimeSync = true)
    (hd : st.settings.dedup = true)
    (hcount : st.syncedHashes.count (hashMessage u a) ≤ 1) :
    (syncMessage (syncMessage st net1 u a c1 ch1 t1).state net2 u a c2 ch2 t2).exit
        = .dedupSkip (hashMessage u a) ∧
    (syncMessage (syncMessage st net1 u a c1 ch1 t1).state net2 u a c2 ch2 t2).request = none ∧
    (syncMessage (syncMessage st net1 u a c1 ch1 t1).state net2 u a c2 ch2 t2).flushCalls = 0 ∧
    (syncMessage (syncMessage st net1 u a c1 ch1 t1).state net2 u a c2 ch2 t2).state
        = (syncMessage st net1 u a c1 ch1 t1).state ∧
    (syncMessage st net1 u a c1 ch1 t1).state.syncedHashes.count (hashMessage u a) = 1 := by
  by_cases hmem : hashMessage u a ∈ st.syncedHashes
  · have e1 : syncMessage st net1 u a c1 ch1 t1 = ⟨st, none, [], 0, .dedupSkip (hashMessage u a)⟩ :=
      syncMessage_skip st net1 u a c1 ch1 t1 hen hrt hd hmem
    have e2 : syncMessage st net2 u a c2 ch2 t2 = ⟨st, none, [], 0, .dedupSkip (hashMessage u a)⟩ :=
      syncMessage_skip st net2 u a c2 ch2 t2 hen hrt hd hmem
    rw [e1]
    dsimp only
    rw [e2]
    refine ⟨rfl, rfl, rfl, rfl, ?_⟩
    have hc1 : 0 < st.syncedHashes.count (hashMessage u a) := List.count_pos_iff.mpr hmem
    omega
  · obtain ⟨hs1, _, he, hr, hdd⟩ := syncMessage_fresh_state st net1 u a c1 ch1 t1 hen hrt hd hmem
    have hmem2 : hashMessage u a ∈ (syncMessage st net1 u a c1 ch1 t1).state.syncedHashes := by
      rw [hs1]
      simp
    have e2 := syncMessage_skip (syncMessage st net1 u a c1 ch1 t1).state net2 u a c2 ch2 t2
      (he.trans hen) (hr.trans hrt) (hdd.trans hd) hmem2
    rw [e2]
    have hc0 : st.syncedHashes.count (hashMessage u a) = 0 := by
      rw [List.count_eq_zero]
      exact hmem
    refine ⟨rfl, rfl, rfl, rfl, ?_⟩
    rw [hs1, List.count_append, hc0]
    simp

/-- Witness for claim C8: the concrete duplicate turn "hi"/"hello" is
    suppressed on its second firing with exactly one fingerprint recorded. -/
theorem claim_C8_dedup_idempotent_witness :
    (stBase.settings.dedup = true ∧ stBase.syncedHashes.count (hashMessage "hi" "hello") ≤ 1) ∧
    (syncMessage (syncMessage stBase netOkAll "hi" "hello" "c" "Ch" "t1").state netOkAll
        "hi" "hello" "c" "Ch" "t2").exit = .dedupSkip (hashMessage "hi" "hello") ∧
    (syncMessage (syncMessage stBase netOkAll "hi" "hello" "c" "Ch" "t1").state netOkAll
        "hi" "hello" "c" "Ch" "t2").request = none ∧
    (syncMessage stBase netOkAll "hi" "hello" "c" "Ch" "t1").state.syncedHashes.count
        (hashMessage "hi" "hello") = 1 :=
  ⟨⟨rfl, by decide⟩,
   (claim_C8_dedup_idempotent stBase netOkAll netOkAll "hi" "hello" "c" "Ch" "t1" "c" "Ch" "t2"
      rfl rfl rfl (by decide)).1,
   (claim_C8_dedup_idempotent stBase netOkAll netOkAll "hi" "hello" "c" "Ch" "t1" "c" "Ch" "t2"
      rfl rfl rfl (by decide)).2.1,
   (claim_C8_dedup_idempotent stBase netOkAll netOkAll "hi" "hello" "c" "Ch" "t1" "c" "Ch" "t2"
      rfl rfl rfl (by decide)).2.2.2.2⟩

/-- Claim C10: with dedup on, a fresh fingerprint is inserted into the set
    and persisted before the delivery attempt, so it is present even though
    delivery fails; with the offline buffer disabled the failed payload is
    dropped (queue untouched), and any later call with identical content on a
    state carrying the fingerprint is suppressed without a request — the turn
    is never delivered. -/
theorem claim_C10_failed_turn_suppressed (st : SyncState) (net : Net) (u a c ch t : String)
    (hen : st.settings.enabled = true) (hrt : st.settings.realtimeSync = true)
    (hd : st.settings.dedup = true)
    (hob : st.settings.offlineBuffer = false)
    (hmem : hashMessage u a ∉ st.syncedHashes)
    (hnet : net (mkMessagePayload ch u a c t) ≠ .ok) :
    hashMessage u a ∈ (syncMessage st net u a c ch t).state.syncedHashes ∧
    hashMessage u a ∈ (syncMessage st net u a c ch t).state.storedHashes ∧
    (syncMessage st net u a c ch t).exit = .failedDropped ∧
    (syncMessage st net u a c ch t).state.buffer = st.buffer ∧
    (∀ (st2 : SyncState) (net2 : Net) (c2 ch2 t2 : String),
      st2.settings.enabled = true → st2.settings.realtimeSync = true →
      st2.settings.dedup = true → hashMessage u a ∈ st2.syncedHashes →
      syncMessage st2 net2 u a c2 ch2 t2 = ⟨st2, none, [], 0, .dedupSkip (hashMessage u a)⟩) := by
  obtain ⟨hs1, hs2, _, _, _⟩ := syncMessage_fresh_state st net u a c ch t hen hrt hd hmem
  have hfail : (syncMessage st net u a c ch t).exit = .failedDropped ∧
      (syncMessage st net u a c ch t).state.buffer = st.buffer := by
    rw [syncMessage_fresh st net u a c ch t hen hrt hd hmem]
    exact (deliverAndHandle_fail_props _ net _ t hnet).2.2.2.1 hob
  refine ⟨?_, ?_, hfail.1, hfail.2, ?_⟩
  · rw [hs1]
    simp
  · rw [hs2]
    exact mem_lastN_concat 500 (by decide) _ _
  · intro st2 net2 c2 ch2 t2 he2 hr2 hd2 hm2
    exact syncMessage_skip st2 net2 u a c2 ch2 t2 he2 hr2 hd2 hm2

def stC10 : SyncState :=
  { stBase with settings := { defaultSettings with offlineBuffer := false } }

/-- Witness for claim C10 at a concrete state with the offline buffer off: the
    failing turn's fingerprint is recorded and persisted, the queue stays
    empty, and the identical retry is suppressed. -/
theorem claim_C10_failed_turn_suppressed_witness :
    (stC10.settings.offlineBuffer = false ∧ hashMessage "u" "a" ∉ stC10.syncedHashes ∧
      netDownAll (mkMessagePayload "Ch" "u" "a" "c" "t") ≠ .ok) ∧
    hashMessage "u" "a" ∈ (syncMessage stC10 netDownAll "u" "a" "c" "Ch" "t").state.syncedHashes ∧
    hashMessage "u" "a" ∈ (syncMessage stC10 netDownAll "u" "a" "c" "Ch" "t").state.storedHashes ∧
    (syncMessage stC10 netDownAll "u" "a" "c" "Ch" "t").exit = .failedDropped ∧
    syncMessage (syncMessage stC10 netDownAll "u" "a" "c" "Ch" "t").state netDownAll "u" "a" "c2" "Ch" "t2"
      = ⟨(syncMessage stC10 netDownAll "u" "a" "c" "Ch" "t").state, none, [], 0,
         .dedupSkip (hashMessage "u" "a")⟩ :=
  ⟨⟨rfl, by decide, by decide⟩,
   (claim_C10_failed_turn_suppressed stC10 netDownAll "u" "a" "c" "Ch" "t"
      rfl rfl rfl rfl (by decide) (by decide)).1,
   (claim_C10_failed_turn_suppressed stC10 netDownAll "u" "a" "c" "Ch" "t"
      rfl rfl rfl rfl (by decide) (by decide)).2.1,
   (claim_C10_failed_turn_suppressed stC10 netDownAll "u" "a" "c" "Ch" "t"
      rfl rfl rfl rfl (by decide) (by decide)).2.2.1,
   (claim_C10_failed_turn_suppressed stC10 netDownAll "u" "a" "c" "Ch" "t"
      rfl rfl rfl rfl (by decide) (by decide)).2.2.2.2
     (syncMessage stC10 netDownAll "u" "a" "c" "Ch" "t").state netDownAll "c2" "Ch" "t2"
     (by decide) (by decide) (by decide) (by decide)⟩

/-! Lemmas for the idle-timer claim. -/

theorem syncMessage_timer_frame (st : SyncState) (net : Net) (u a c ch t : String) :
    (syncMessage st net u a c ch t).state.timers = st.timers ∧
    (syncMessage st net u a c ch t).state.idleTimer = st.idleTimer ∧
    (syncMessage st net u a c ch t).state.settings.enabled = st.settings.enabled ∧
    (syncMessage st net u a c ch t).state.settings.fullConversationSync = st.settings.fullConversationSync ∧
    (syncMessage st net u a c ch t).state.settings.idleTimeoutMinutes = st.settings.idleTimeoutMinutes := by
  by_cases hg : (st.settings.enabled = true ∧ st.settings.realtimeSync = true)
  · by_cases hd : st.settings.dedup = true
    · by_cases hmem : hashMessage u a ∈ st.syncedHashes
      · rw [syncMessage_skip st net u a c ch t hg.1 hg.2 hd hmem]
        exact ⟨rfl, rfl, rfl, rfl, rfl⟩
      · rw [syncMessage_fresh st net u a c ch t hg.1 hg.2 hd hmem]
        obtain ⟨_, _, _, h4, h5, h6, _, h8, h9, _, _, _⟩ := deliverAndHandle_frame
          (saveSyncedHashes { st with syncedHashes := st.syncedHashes ++ [hashMessage u a] })
          net (mkMessagePayload ch u a c t) t
        exact ⟨h4, h5, h6, h8, h9⟩
    · have hd2 : st.settings.dedup = false := by
        revert hd
        cases st.settings.dedup <;> simp
      rw [syncMessage_nodedup st net u a c ch t hg.1 hg.2 hd2]
      obtain ⟨_, _, _, h4, h5, h6, _, h8, h9, _, _, _⟩ := deliverAndHandle_frame
        st net (mkMessagePayload ch u a c t) t
      exact ⟨h4, h5, h6, h8, h9⟩
  · rw [syncMessage_disabled st net u a c ch t hg]
    exact ⟨rfl, rfl, rfl, rfl, rfl⟩

theorem resetIdleTimer_armed (st : SyncState) (nowMs : Nat)
    (hfc : st.settings.fullConversationSync = true)
    (hcov : ∀ p ∈ st.timers.pending, st.idleTimer = some p.1) :
    (resetIdleTimer st nowMs).timers.pending = [(st.timers.nextId, nowMs + Tms st.settings)] ∧
    (resetIdleTimer st nowMs).idleTimer = some st.timers.nextId ∧
    (resetIdleTimer st nowMs).settings = st.settings := by
  unfold resetIdleTimer
  rw [if_neg (by simp [hfc])]
  cases hid : st.idleTimer with
  | none =>
    have hp : st.timers.pending = [] := by
      cases hpc : st.timers.pending with
      | nil => rfl
      | cons q l =>
        have hm := hcov q (by rw [hpc]; exact List.mem_cons_self _ _)
        rw [hid] at hm
        cases hm
    simp [setTimeout, hp]
  | some h =>
    have hp : st.timers.pending.filter (fun q => q.1 != h) = [] := by
      rw [List.filter_eq_nil_iff]
      intro q hq
      have hm := hcov q hq
      rw [hid] at hm
      have : q.1 = h := by
        cases hm
        rfl
      simp [this]
    simp [clearTimeout, setTimeout, hp]

theorem fireTimers_skip (st : SyncState) (t : Nat) (ctx : Context) (net : Net) (now : String)
    (h : ∀ p ∈ st.timers.pending, t < p.2) :
    fireTimers st t ctx net now = (st, 0) := by
  unfold fireTimers
  have hdue : st.timers.pending.filter (fun p => p.2 ≤ t) = [] := by
    rw [List.filter_eq_nil_iff]
    intro q hq
    have := h q hq
    simp
    omega
  have hrest : st.timers.pending.filter (fun p => t < p.2) = st.timers.pending := by
    rw [List.filter_eq_self]
    intro q hq
    have := h q hq
    simp
    omega
  rw [hdue, hrest]
  rfl

theorem messageReceivedHandler_run (st : SyncState) (ctx : Context) (net : Net)
    (idx : Nat) (now : String) (nowMs : Nat) (ai : ChatMsg)
    (hen : st.settings.enabled = true) (hlen : 2 ≤ ctx.chat.length)
    (hai : ctx.chat[idx]? = some ai) (hu : ai.is_user = false) :
    messageReceivedHandler st ctx net idx now nowMs =
      (resetIdleTimer
        (syncMessage st net (userTextAt ctx.chat idx) ai.mes ctx.chatId ctx.characterName now).state
        nowMs,
       some (syncMessage st net (userTextAt ctx.chat idx) ai.mes ctx.chatId ctx.characterName now)) := by
  unfold messageReceivedHandler
  rw [if_neg (by simp [hen]), if_neg (by omega), hai]
  simp [hu]

theorem turnStep_quiet (P : RunParams) (rs : RunState) (t : Nat) (ai : ChatMsg)
    (hen : rs.st.settings.enabled = true)
    (hfc : rs.st.settings.fullConversationSync = true)
    (hlen : 2 ≤ P.ctx.chat.length)
    (hai : P.ctx.chat[P.messageIndex]? = some ai)
    (hu : ai.is_user = false)
    (hcov : ∀ p ∈ rs.st.timers.pending, rs.st.idleTimer = some p.1)
    (hquiet : ∀ p ∈ rs.st.timers.pending, t < p.2) :
    (turnStep P rs t).fires = rs.fires ∧
    (turnStep P rs t).st.timers.pending = [(rs.st.timers.nextId, t + Tms rs.st.settings)] ∧
    (turnStep P rs t).st.idleTimer = some rs.st.timers.nextId ∧
    (turnStep P rs t).st.settings.enabled = true ∧
    (turnStep P rs t).st.settings.fullConversationSync = true ∧
    (turnStep P rs t).st.settings.idleTimeoutMinutes = rs.st.settings.idleTimeoutMinutes := by
  have hstep : turnStep P rs t =
      ⟨(messageReceivedHandler rs.st P.ctx P.net P.messageIndex P.now t).1, rs.fires⟩ := by
    unfold turnStep
    rw [fireTimers_skip rs.st t P.ctx P.net P.now hquiet]
    simp
  rw [hstep,
    messageReceivedHandler_run rs.st P.ctx P.net P.messageIndex P.now t ai hen hlen hai hu]
  obtain ⟨ht, hi, he, hf, hm⟩ := syncMessage_timer_frame rs.st P.net
    (userTextAt P.ctx.chat P.messageIndex) ai.mes P.ctx.chatId P.ctx.characterName P.now
  have hfc2 : (syncMessage rs.st P.net (userTextAt P.ctx.chat P.messageIndex) ai.mes
      P.ctx.chatId P.ctx.characterName P.now).state.settings.fullConversationSync = true := by
    rw [hf]
    exact hfc
  have hcov2 : ∀ p ∈ (syncMessage rs.st P.net (userTextAt P.ctx.chat P.messageIndex) ai.mes
      P.ctx.chatId P.ctx.characterName P.now).state.timers.pending,
      (syncMessage rs.st P.net (userTextAt P.ctx.chat P.messageIndex) ai.mes
        P.ctx.chatId P.ctx.characterName P.now).state.idleTimer = some p.1 := by
    rw [ht, hi]
    exact hcov
  obtain ⟨ha1, ha2, ha3⟩ := resetIdleTimer_armed
    (syncMessage rs.st P.net (userTextAt P.ctx.chat P.messageIndex) ai.mes
      P.ctx.chatId P.ctx.characterName P.now).state t hfc2 hcov2
  have htms : Tms (syncMessage rs.st P.net (userTextAt P.ctx.chat P.messageIndex) ai.mes
      P.ctx.chatId P.ctx.characterName P.now).state.settings = Tms rs.st.settings := by
    unfold Tms
    rw [hm]
  refine ⟨rfl, ?_, ?_, ?_, ?_, ?_⟩
  · rw [ha1, ht, htms]
  · rw [ha2, ht]
  · rw [ha3, he]
    exact hen
  · rw [ha3, hf]
    exact hfc
  · rw [ha3, hm]

theorem runTurns_quiet (P : RunParams) (ai : ChatMsg) (T0 : Nat)
    (hlen : 2 ≤ P.ctx.chat.length)
    (hai : P.ctx.chat[P.messageIndex]? = some ai)
    (hu : ai.is_user = false) :
    ∀ (times : List Nat) (rs : RunState) (tPrev : Nat),
      rs.st.settings.enabled = true →
      rs.st.settings.fullConversationSync = true →
      Tms rs.st.settings = T0 →
      (∀ p ∈ rs.st.timers.pending, rs.st.idleTimer = some p.1) →
      (∀ p ∈ rs.st.timers.pending, p.2 = tPrev + T0) →
      rs.st.timers.pending.length ≤ 1 →
      gapsOk T0 tPrev times = true →
      (runTurns P rs times).fires = rs.fires ∧
      (∀ p ∈ (runTurns P rs times).st.timers.pending, p.2 = List.getLastD times tPrev + T0) ∧
      (runTurns P rs times).st.timers.pending.length ≤ 1 ∧
      (times ≠ [] → (runTurns P rs times).st.timers.pending.length = 1) := by
  intro times
  induction times with
  | nil =>
    intro rs tPrev hen hfc hT hcov hpend hlen1 hgaps
    exact ⟨rfl, hpend, hlen1, fun hne => absurd rfl hne⟩
  | cons t rest ih =>
    intro rs tPrev hen hfc hT hcov hpend hlen1 hgaps
    have hg : (tPrev ≤ t ∧ t < tPrev + T0) ∧ gapsOk T0 t rest = true := by
      revert hgaps
      simp [gapsOk]
    have hquiet : ∀ p ∈ rs.st.timers.pending, t < p.2 := by
      intro p hp
      rw [hpend p hp]
      omega
    obtain ⟨hf0, hp1, hi1, he1, hfc1, hm1⟩ := turnStep_quiet P rs t ai hen hfc hlen hai hu hcov hquiet
    have hT1 : Tms (turnStep P rs t).st.settings = T0 := by
      unfold Tms at hT ⊢
      rw [hm1]
      exact hT
    have hcov1 : ∀ p ∈ (turnStep P rs t).st.timers.pending,
        (turnStep P rs t).st.idleTimer = some p.1 := by
      intro p hp
      rw [hp1] at hp
      simp at hp
      rw [hp, hi1]
    have hpend1 : ∀ p ∈ (turnStep P rs t).st.timers.pending, p.2 = t + T0 := by
      intro p hp
      rw [hp1] at hp
      simp at hp
      rw [hp]
      show t + Tms rs.st.settings = t + T0
      rw [hT]
    have hlen1' : (turnStep P rs t).st.timers.pending.length ≤ 1 := by
      rw [hp1]
      simp
    have H := ih (turnStep P rs t) t he1 hfc1 hT1 hcov1 hpend1 hlen1' hg.2
    have hrun : runTurns P rs (t :: rest) = runTurns P (turnStep P rs t) rest := rfl
    rw [hrun]
    refine ⟨?_, ?_, H.2.2.1, ?_⟩
    · rw [H.1, hf0]
    · rw [List.getLastD_cons]
      exact H.2.1
    · intro _
      cases rest with
      | nil =>
        show (turnStep P rs t).st.timers.pending.length = 1
        rw [hp1]
        rfl
      | cons r rl =>
        exact H.2.2.2 (by simp)

/-- Claim C9: for a run of turn events whose consecutive gaps all stay below
    the idle timeout, zero idle callbacks fire during the whole run (no
    full-conversation sync is produced before the timeout elapses after the
    last event); afterwards exactly one timer is armed and it is set to fire
    at lastEvent + idleTimeoutMinutes in milliseconds — each rearm having
    cancelled the previous countdown first, so duplicate countdowns never
    exist. -/
theorem claim_C9_idle_debounce (P : RunParams) (st0 : SyncState) (t1 : Nat) (rest : List Nat)
    (ai : ChatMsg)
    (hen : st0.settings.enabled = true)
    (hfc : st0.settings.fullConversationSync = true)
    (hlen : 2 ≤ P.ctx.chat.length)
    (hai : P.ctx.chat[P.messageIndex]? = some ai)
    (hu : ai.is_user = false)
    (hpend0 : st0.timers.pending = [])
    (hgaps : gapsOk (Tms st0.settings) t1 rest = true) :
    (runTurns P ⟨st0, 0⟩ (t1 :: rest)).fires = 0 ∧
    (∀ p ∈ (runTurns P ⟨st0, 0⟩ (t1 :: rest)).st.timers.pending,
        p.2 = List.getLastD rest t1 + Tms st0.settings) ∧
    (runTurns P ⟨st0, 0⟩ (t1 :: rest)).st.timers.pending.length = 1 := by
  have hcov0 : ∀ p ∈ (⟨st0, 0⟩ : RunState).st.timers.pending,
      (⟨st0, 0⟩ : RunState).st.idleTimer = some p.1 := by
    intro p hp
    rw [show (⟨st0, 0⟩ : RunState).st = st0 from rfl, hpend0] at hp
    cases hp
  have hquiet0 : ∀ p ∈ (⟨st0, 0⟩ : RunState).st.timers.pending, t1 < p.2 := by
    intro p hp
    rw [show (⟨st0, 0⟩ : RunState).st = st0 from rfl, hpend0] at hp
    cases hp
  obtain ⟨hf0, hp1, hi1, he1, hfc1, hm1⟩ :=
    turnStep_quiet P ⟨st0, 0⟩ t1 ai hen hfc hlen hai hu hcov0 hquiet0
  have hT1 : Tms (turnStep P ⟨st0, 0⟩ t1).st.settings = Tms st0.settings := by
    unfold Tms
    rw [hm1]
  have hcov1 : ∀ p ∈ (turnStep P ⟨st0, 0⟩ t1).st.timers.pending,
      (turnStep P ⟨st0, 0⟩ t1).st.idleTimer = some p.1 := by
    intro p hp
    rw [hp1] at hp
    simp at hp
    rw [hp, hi1]
  have hpend1 : ∀ p ∈ (turnStep P ⟨st0, 0⟩ t1).st.timers.pending, p.2 = t1 + Tms st0.settings := by
    intro p hp
    rw [hp1] at hp
    simp at hp
    rw [hp]
  have hlen1 : (turnStep P ⟨st0, 0⟩ t1).st.timers.pending.length ≤ 1 := by
    rw [hp1]
    simp
  have H := runTurns_quiet P ai (Tms st0.settings) hlen hai hu rest (turnStep P ⟨st0, 0⟩ t1) t1
    he1 hfc1 hT1 hcov1 hpend1 hlen1 hgaps
  have hrun : runTurns P ⟨st0, 0⟩ (t1 :: rest) = runTurns P (turnStep P ⟨st0, 0⟩ t1) rest := rfl
  rw [hrun]
  refine ⟨?_, H.2.1, ?_⟩
  · rw [H.1, hf0]
  · cases rest with
    | nil =>
      show (turnStep P ⟨st0, 0⟩ t1).st.timers.pending.length = 1
      rw [hp1]
      rfl
    | cons r rl =>
      exact H.2.2.2 (by simp)

def PW : RunParams := ⟨ctxA, netOkAll, "t", 1⟩

/-- Witness for claim C9: three turns at 0s, 1s and 2s against the default
    five-minute idle timeout fire zero idle callbacks and leave exactly one
    armed timer. -/
theorem claim_C9_idle_debounce_witness :
    (stBase.settings.enabled = true ∧ stBase.settings.fullConversationSync = true ∧
      2 ≤ PW.ctx.chat.length ∧
      PW.ctx.chat[PW.messageIndex]? = some ⟨false, false, "hello", "d2"⟩ ∧
      stBase.timers.pending = [] ∧
      gapsOk (Tms stBase.settings) 0 [1000, 2000] = true) ∧
    (runTurns PW ⟨stBase, 0⟩ (0 :: [1000, 2000])).fires = 0 ∧
    (runTurns PW ⟨stBase, 0⟩ (0 :: [1000, 2000])).st.timers.pending.length = 1 :=
  ⟨⟨rfl, rfl, by decide, by decide, rfl, by decide⟩,
   (claim_C9_idle_debounce PW stBase 0 [1000, 2000] ⟨false, false, "hello", "d2"⟩
      rfl rfl (by decide) (by decide) rfl rfl (by decide)).1,
   (claim_C9_idle_debounce PW stBase 0 [1000, 2000] ⟨false, false, "hello", "d2"⟩
      rfl rfl (by decide) (by decide) rfl rfl (by decide)).2.2⟩

end OpenClawSync
